import Mathlib

/-!
Verification development for the GitHub API rate-limit tester
(`github_api_tester_clean.py`).

The embedding is shallow: each Python function that the specification's
claims touch is translated into a Lean definition over explicit inputs.
Network effects are modelled by passing the outcome of `session.get`
(a received HTTP response, or the string rendering of a raised exception)
as data; wall-clock latencies are rationals (milliseconds); the mutable
`self.results` list is threaded explicitly.
-/

namespace GithubApiTester

/-- An HTTP response as `make_request` observes it: the status code, the
body text, and the three rate-limit headers (`none` when the header is
absent from the response). -/
structure HttpResponse where
  status_code : Nat
  text : String
  xRateLimitRemaining : Option String
  xRateLimitLimit : Option String
  xRateLimitReset : Option String
deriving DecidableEq, Repr

/-- Outcome of `self.session.get(url)`: either a received response, or a
raised exception `e`, carried as its string rendering `str(e)` (which may
be the empty string, e.g. for an exception constructed with no arguments). -/
inductive CallOutcome where
  | ok (resp : HttpResponse)
  | exn (msg : String)
deriving DecidableEq, Repr

/-- The external inputs of one `make_request` call: the endpoint argument,
the `datetime.now().isoformat()` reading, the measured elapsed wall-clock
time in milliseconds, and the transport outcome. -/
structure CallInput where
  endpoint : String
  timestamp : String
  elapsed_ms : ℚ
  outcome : CallOutcome
deriving DecidableEq, Repr

/-- One entry of `self.results`, mirroring the result dictionary built by
`make_request`.  The rate-limit fields are strings with sentinel `"N/A"`,
exactly as `response.headers.get(..., 'N/A')` stores them. -/
structure RequestRecord where
  timestamp : String
  endpoint : String
  status_code : Nat
  response_time_ms : ℚ
  rate_limit_remaining : String
  rate_limit_limit : String
  rate_limit_reset : String
  success : Bool
  error : Option String
deriving DecidableEq, Repr

/-- The result dictionary `make_request` builds from one call.

`try` branch: status, latency, headers with `'N/A'` default,
`success = (status == 200)`, `error = None` overwritten with the first 200
characters of the body when the status is not 200.
`except` branch: `status_code = 0`, all rate-limit fields `'N/A'`,
`success = False`, `error = str(e)`. -/
def buildRecord (c : CallInput) : RequestRecord :=
  match c.outcome with
  | .ok resp =>
      { timestamp := c.timestamp
        endpoint := c.endpoint
        status_code := resp.status_code
        response_time_ms := c.elapsed_ms
        rate_limit_remaining := resp.xRateLimitRemaining.getD "N/A"
        rate_limit_limit := resp.xRateLimitLimit.getD "N/A"
        rate_limit_reset := resp.xRateLimitReset.getD "N/A"
        success := resp.status_code == 200
        error := if resp.status_code == 200 then none else some (resp.text.take 200) }
  | .exn msg =>
      { timestamp := c.timestamp
        endpoint := c.endpoint
        status_code := 0
        response_time_ms := c.elapsed_ms
        rate_limit_remaining := "N/A"
        rate_limit_limit := "N/A"
        rate_limit_reset := "N/A"
        success := false
        error := some msg }

/-- `make_request`: build the record, append it to `self.results`
(`self.results.append(result)`), and return it. -/
def make_request (c : CallInput) (results : List RequestRecord) :
    RequestRecord × List RequestRecord :=
  let r := buildRecord c
  (r, results ++ [r])

/-- A sequence of executor calls, each threading the result store. -/
def run_make_requests (cs : List CallInput) (store : List RequestRecord) :
    List RequestRecord :=
  cs.foldl (fun s c => (make_request c s).2) store

theorem run_make_requests_eq (cs : List CallInput) (store : List RequestRecord) :
    run_make_requests cs store = store ++ cs.map buildRecord := by
  induction cs generalizing store with
  | nil => simp [run_make_requests]
  | cons c rest ih =>
      simp [run_make_requests, make_request] at ih ⊢
      rw [ih]
      simp

/-- C1: every `make_request` call appends exactly the record it returns to
the result store (never touching existing entries), so after any sequence
of `N ≥ 0` calls the store holds exactly `N` records, in issuance order,
none mutated or deleted. -/
theorem store_append_only (cs : List CallInput) (store : List RequestRecord) :
    run_make_requests cs store = store ++ cs.map buildRecord ∧
    (run_make_requests cs store).length = store.length + cs.length ∧
    (∀ c s, make_request c s = (buildRecord c, s ++ [buildRecord c])) := by
  refine ⟨run_make_requests_eq cs store, ?_, fun c s => rfl⟩
  rw [run_make_requests_eq cs store]
  simp

/-- C2: for a record built from a received HTTP response, `success` holds
exactly when the status code is 200, and a successful record carries no
error text. -/
theorem success_iff_status_200 (resp : HttpResponse) (e ts : String) (t : ℚ) :
    ((buildRecord ⟨e, ts, t, .ok resp⟩).success = true ↔
      (buildRecord ⟨e, ts, t, .ok resp⟩).status_code = 200) ∧
    ((buildRecord ⟨e, ts, t, .ok resp⟩).success = true →
      (buildRecord ⟨e, ts, t, .ok resp⟩).error = none) := by
  constructor
  · simp [buildRecord]
  · intro h
    simp [buildRecord] at h ⊢
    simp [h]

/-- A concrete successful response used by witnesses. -/
def respOk : HttpResponse :=
  ⟨200, "{}", some "4998", some "5000", some "1700000000"⟩

/-- A concrete 403 response that still carries rate-limit headers (with a
limit value differing from `respOk`'s). -/
def resp403 : HttpResponse :=
  ⟨403, "API rate limit exceeded for user", some "0", some "60", some "1700000000"⟩

theorem success_iff_status_200_witness :
    (buildRecord ⟨"/users/octocat", "t0", 57, .ok respOk⟩).success = true ∧
    (buildRecord ⟨"/users/octocat", "t0", 57, .ok respOk⟩).error = none := by
  have h := success_iff_status_200 respOk "/users/octocat" "t0" 57
  exact ⟨by decide, h.2 (by decide)⟩

/-- C3 counterexample: Python allows `str(e) = ""` (an exception built with
no arguments), and then the `except` branch stores `error = str(e) = ""`:
the error field is present but empty, refuting "the record's error field is
non-empty ... for every possible raised exception". -/
theorem status0_nonempty_error_cex :
    ¬ ∃ s, (buildRecord ⟨"/users/octocat", "t0", 57, .exn ""⟩).error = some s ∧
      s ≠ "" := by
  rintro ⟨s, hs, hne⟩
  simp [buildRecord] at hs
  exact hne hs.symm

/-- C3 (amended): `status_code = 0` exactly when the call raised a
transport-level error (any actually received HTTP response has a nonzero
status code), and in that case the error field is present — it equals the
exception's string rendering, which may itself be empty — `success` is
false, and all three rate-limit fields hold the sentinel `"N/A"`. -/
theorem status0_transport_error (c : CallInput)
    (hresp : ∀ resp, c.outcome = .ok resp → resp.status_code ≠ 0) :
    ((buildRecord c).status_code = 0 ↔ ∃ m, c.outcome = .exn m) ∧
    (∀ m, c.outcome = .exn m →
      (buildRecord c).error = some m ∧
      (buildRecord c).success = false ∧
      (buildRecord c).rate_limit_remaining = "N/A" ∧
      (buildRecord c).rate_limit_limit = "N/A" ∧
      (buildRecord c).rate_limit_reset = "N/A") := by
  constructor
  · cases h : c.outcome with
    | ok resp =>
        simp [buildRecord, h]
        exact hresp resp h
    | exn m => simp [buildRecord, h]
  · intro m hm
    simp [buildRecord, hm]

theorem status0_transport_error_witness :
    (buildRecord ⟨"/users/octocat", "t0", 57, .exn "Connection refused"⟩).status_code = 0 ∧
    (buildRecord ⟨"/users/octocat", "t0", 57, .exn "Connection refused"⟩).error =
      some "Connection refused" := by
  have h := status0_transport_error ⟨"/users/octocat", "t0", 57, .exn "Connection refused"⟩
    (by intro resp hr; exact absurd hr (by simp))
  exact ⟨h.1.mpr ⟨"Connection refused", rfl⟩, (h.2 "Connection refused" rfl).1⟩

/-- An observable event of a pattern driver: one executor call (carrying the
record it produced) or one `time.sleep(seconds)`. -/
inductive DriverEvent where
  | call (r : RequestRecord)
  | sleep (seconds : ℚ)
deriving DecidableEq, Repr

/-- `test_sustained_pattern`: for `i in range(N)` call `make_request`, and
sleep `interval` seconds unless `i == N - 1` ("Don't sleep after the last
request").  Returns the final store and the event trace in order. -/
def test_sustained_pattern :
    List CallInput → ℚ → List RequestRecord → List RequestRecord × List DriverEvent
  | [], _, store => (store, [])
  | [c], _, store =>
      let p := make_request c store
      (p.2, [.call p.1])
  | c :: c2 :: rest, interval, store =>
      let p := make_request c store
      let q := test_sustained_pattern (c2 :: rest) interval p.2
      (q.1, .call p.1 :: .sleep interval :: q.2)

/-- `test_delayed_pattern`: like the sustained driver, but the sleep starts
at `current_delay = initial_delay` and grows by `delay_increment` after each
non-final call. -/
def test_delayed_pattern :
    List CallInput → ℚ → ℚ → List RequestRecord → List RequestRecord × List DriverEvent
  | [], _, _, store => (store, [])
  | [c], _, _, store =>
      let p := make_request c store
      (p.2, [.call p.1])
  | c :: c2 :: rest, current_delay, delay_increment, store =>
      let p := make_request c store
      let q := test_delayed_pattern (c2 :: rest) (current_delay + delay_increment)
        delay_increment p.2
      (q.1, .call p.1 :: .sleep current_delay :: q.2)

/-- The records carried by the call events of a trace, in order. -/
def traceCalls (tr : List DriverEvent) : List RequestRecord :=
  tr.filterMap fun ev => match ev with | .call r => some r | .sleep _ => none

/-- The sleep durations of a trace, in order. -/
def traceSleeps (tr : List DriverEvent) : List ℚ :=
  tr.filterMap fun ev => match ev with | .call _ => none | .sleep s => some s

theorem sustained_trace_calls (cs : List CallInput) (interval : ℚ)
    (store : List RequestRecord) :
    traceCalls (test_sustained_pattern cs interval store).2 = cs.map buildRecord := by
  induction cs generalizing store with
  | nil => simp [test_sustained_pattern, traceCalls]
  | cons c rest ih =>
      cases rest with
      | nil => simp [test_sustained_pattern, make_request, traceCalls]
      | cons c2 rs =>
          simp only [test_sustained_pattern, make_request, traceCalls,
            List.filterMap_cons, List.map_cons]
          rw [← traceCalls, ih]
          simp

theorem sustained_trace_sleeps (cs : List CallInput) (interval : ℚ)
    (store : List RequestRecord) :
    traceSleeps (test_sustained_pattern cs interval store).2 =
      List.replicate (cs.length - 1) interval := by
  induction cs generalizing store with
  | nil => simp [test_sustained_pattern, traceSleeps]
  | cons c rest ih =>
      cases rest with
      | nil => simp [test_sustained_pattern, make_request, traceSleeps]
      | cons c2 rs =>
          simp only [test_sustained_pattern, make_request, traceSleeps,
            List.filterMap_cons]
          rw [← traceSleeps, ih]
          simp [List.replicate]

theorem sustained_trace_last (cs : List CallInput) (h : cs ≠ []) (interval : ℚ)
    (store : List RequestRecord) :
    ∃ r, (test_sustained_pattern cs interval store).2.getLast? = some (.call r) := by
  induction cs generalizing store with
  | nil => exact absurd rfl h
  | cons c rest ih =>
      cases rest with
      | nil => exact ⟨buildRecord c, by simp [test_sustained_pattern, make_request]⟩
      | cons c2 rs =>
          obtain ⟨r, hr⟩ := ih (by simp) (make_request c store).2
          refine ⟨r, ?_⟩
          simp only [test_sustained_pattern]
          cases hq : (test_sustained_pattern (c2 :: rs) interval (make_request c store).2).2 with
          | nil => rw [hq] at hr; simp at hr
          | cons x xs =>
              rw [hq] at hr
              rw [List.getLast?_cons_cons, List.getLast?_cons_cons]
              exact hr

theorem delayed_trace_calls (cs : List CallInput) (d inc : ℚ)
    (store : List RequestRecord) :
    traceCalls (test_delayed_pattern cs d inc store).2 = cs.map buildRecord := by
  induction cs generalizing store d with
  | nil => simp [test_delayed_pattern, traceCalls]
  | cons c rest ih =>
      cases rest with
      | nil => simp [test_delayed_pattern, make_request, traceCalls]
      | cons c2 rs =>
          simp only [test_delayed_pattern, make_request, traceCalls,
            List.filterMap_cons, List.map_cons]
          rw [← traceCalls, ih]
          simp

theorem delayed_trace_sleeps (cs : List CallInput) (d inc : ℚ)
    (store : List RequestRecord) :
    traceSleeps (test_delayed_pattern cs d inc store).2 =
      (List.range (cs.length - 1)).map (fun k : ℕ => d + (k : ℚ) * inc) := by
  induction cs generalizing store d with
  | nil => simp [test_delayed_pattern, traceSleeps]
  | cons c rest ih =>
      cases rest with
      | nil => simp [test_delayed_pattern, make_request, traceSleeps]
      | cons c2 rs =>
          simp only [test_delayed_pattern, make_request, traceSleeps,
            List.filterMap_cons]
          rw [← traceSleeps, ih]
          simp only [List.length_cons, Nat.add_sub_cancel, List.range_succ_eq_map,
            List.map_cons, List.map_map]
          congr 1
          · push_cast; ring
          · refine List.map_congr_left ?_
            intro k _
            simp only [Function.comp]
            push_cast
            ring

theorem delayed_trace_last (cs : List CallInput) (h : cs ≠ []) (d inc : ℚ)
    (store : List RequestRecord) :
    ∃ r, (test_delayed_pattern cs d inc store).2.getLast? = some (.call r) := by
  induction cs generalizing store d with
  | nil => exact absurd rfl h
  | cons c rest ih =>
      cases rest with
      | nil => exact ⟨buildRecord c, by simp [test_delayed_pattern, make_request]⟩
      | cons c2 rs =>
          obtain ⟨r, hr⟩ := ih (by simp) (d + inc) (make_request c store).2
          refine ⟨r, ?_⟩
          simp only [test_delayed_pattern]
          cases hq : (test_delayed_pattern (c2 :: rs) (d + inc) inc (make_request c store).2).2 with
          | nil => rw [hq] at hr; simp at hr
          | cons x xs =>
              rw [hq] at hr
              rw [List.getLast?_cons_cons, List.getLast?_cons_cons]
              exact hr

/-- C7: for any nonempty call sequence, the sustained driver performs
exactly the `N` executor calls in order with exactly `N - 1` sleeps, all of
`interval` seconds, and the delayed driver performs the `N` calls with
exactly `N - 1` sleeps of `initial_delay + k * delay_increment` seconds for
`k = 0, 1, ...` in order; in both traces the final event is a call, so no
sleep follows the last request. -/
theorem pattern_driver_sleeps (cs : List CallInput) (h : cs ≠ [])
    (interval initial_delay delay_increment : ℚ) (store : List RequestRecord) :
    traceCalls (test_sustained_pattern cs interval store).2 = cs.map buildRecord ∧
    traceSleeps (test_sustained_pattern cs interval store).2 =
      List.replicate (cs.length - 1) interval ∧
    (∃ r, (test_sustained_pattern cs interval store).2.getLast? = some (.call r)) ∧
    traceCalls (test_delayed_pattern cs initial_delay delay_increment store).2 =
      cs.map buildRecord ∧
    traceSleeps (test_delayed_pattern cs initial_delay delay_increment store).2 =
      (List.range (cs.length - 1)).map
        (fun k : ℕ => initial_delay + (k : ℚ) * delay_increment) ∧
    (∃ r, (test_delayed_pattern cs initial_delay delay_increment store).2.getLast? =
      some (.call r)) :=
  ⟨sustained_trace_calls cs interval store,
   sustained_trace_sleeps cs interval store,
   sustained_trace_last cs h interval store,
   delayed_trace_calls cs initial_delay delay_increment store,
   delayed_trace_sleeps cs initial_delay delay_increment store,
   delayed_trace_last cs h initial_delay delay_increment store⟩

/-- Three concrete executor calls used by the C7 witness. -/
def threeCalls : List CallInput :=
  [⟨"/users/octocat", "t1", 100, .ok respOk⟩,
   ⟨"/users/octocat", "t2", 110, .ok respOk⟩,
   ⟨"/users/octocat", "t3", 90, .ok respOk⟩]

theorem pattern_driver_sleeps_witness :
    traceSleeps (test_sustained_pattern threeCalls (1/2) []).2 = [1/2, 1/2] ∧
    (traceCalls (test_sustained_pattern threeCalls (1/2) []).2).length = 3 ∧
    traceSleeps (test_delayed_pattern threeCalls 1 (1/2) []).2 = [1, 3/2] := by
  have h := pattern_driver_sleeps threeCalls (by simp [threeCalls]) (1/2) 1 (1/2) []
  refine ⟨?_, ?_, ?_⟩
  · rw [h.2.1]; norm_num [threeCalls, List.replicate]
  · rw [h.1]; simp [threeCalls]
  · rw [h.2.2.2.2.1]
    norm_num [threeCalls, List.range_succ]

/-- Decimal value of a digit character, `none` for a non-digit. -/
def digitVal (c : Char) : Option ℕ :=
  if '0' ≤ c ∧ c ≤ '9' then some (c.toNat - '0'.toNat) else none

/-- Accumulate a decimal digit run, failing on the first non-digit. -/
def parseDigitsAux : List Char → ℕ → Option ℕ
  | [], acc => some acc
  | c :: cs, acc =>
      match digitVal c with
      | none => none
      | some d => parseDigitsAux cs (acc * 10 + d)

/-- Parse a nonempty run of decimal digits. -/
def parseDigits : List Char → Option ℕ
  | [] => none
  | c :: cs => parseDigitsAux (c :: cs) 0

/-- Python `int(s)` on the header strings this program stores: an optionally
signed decimal integer literal parses, anything else (e.g. the sentinel
`"N/A"` or the empty string) raises `ValueError`, modelled as `none`. -/
def pyInt (s : String) : Option ℤ :=
  match s.data with
  | '-' :: cs => (parseDigits cs).map fun n => -(n : ℤ)
  | '+' :: cs => (parseDigits cs).map fun n => (n : ℤ)
  | cs => (parseDigits cs).map fun n => (n : ℤ)

/-- `pd.to_numeric(s, errors='coerce')` on the same strings: an integer
literal parses (the rate-limit headers only ever carry integers), anything
else becomes NaN, modelled as `none`. -/
def pdToNumeric (s : String) : Option ℚ :=
  (pyInt s).map fun z => (z : ℚ)

/-- The analysis dictionary built by `analyze_results`.
`std_sq_response_time_ms` carries the square of the pandas
`df['response_time_ms'].std()` value (the standard deviation itself is its
irrational square root; squaring keeps the embedding in `ℚ` and loses no
information since both sides are nonnegative).  `status_code_counts` is the
`value_counts().to_dict()` mapping as a count function.  The two rate-limit
fields are `none` when omitted from the dictionary (`final` is also `none`
when `pd.to_numeric` coerced the value to NaN). -/
structure Analysis where
  total_requests : ℕ
  successful_requests : ℕ
  failed_requests : ℕ
  success_rate : ℚ
  avg_response_time_ms : ℚ
  min_response_time_ms : ℚ
  max_response_time_ms : ℚ
  std_sq_response_time_ms : ℚ
  status_code_counts : ℕ → ℕ
  final_rate_limit_remaining : Option ℚ
  rate_limit_usage : Option ℚ

/-- Possible outcomes of `analyze_results`: a raised exception (the `int()`
conversion failing on a non-numeric limit), the empty dictionary `{}`
returned for an empty result store, or a full summary. -/
inductive AnalyzeOutcome where
  | raised
  | emptyDict
  | summary (a : Analysis)

/-- `analyze_results` over the result store.

Mirrors the source: empty store returns `{}`; otherwise counts, rates and
latency statistics come from the whole frame (`.std()` is the pandas
default `ddof=1`, so its square divides by `n - 1`, NaN — here the junk
value `0/0 = 0` — when `n = 1`); the rate-limit section filters rows whose
`rate_limit_remaining` differs from `'N/A'`, and when that subset is
nonempty takes the last coerced `rate_limit_remaining` and divides by
`int()` of the first row's `rate_limit_limit`, raising when that string is
not numeric. -/
def analyze_results (records : List RequestRecord) : AnalyzeOutcome :=
  match records with
  | [] => .emptyDict
  | r0 :: rest =>
      let df := r0 :: rest
      let n : ℕ := df.length
      let times := df.map fun r => r.response_time_ms
      let nsucc := (df.filter fun r => r.success).length
      let nfail := (df.filter fun r => !r.success).length
      let mean := times.sum / (n : ℚ)
      let minv := rest.foldl (fun m r => min m r.response_time_ms) r0.response_time_ms
      let maxv := rest.foldl (fun m r => max m r.response_time_ms) r0.response_time_ms
      let stdSq := (times.map fun x => (x - mean) ^ 2).sum / ((n : ℚ) - 1)
      let counts : ℕ → ℕ := fun c => (df.filter fun r => r.status_code == c).length
      let rld := df.filter fun r => !(r.rate_limit_remaining == "N/A")
      match rld with
      | [] =>
          .summary
            { total_requests := n, successful_requests := nsucc,
              failed_requests := nfail,
              success_rate := (nsucc : ℚ) / (n : ℚ) * 100,
              avg_response_time_ms := mean, min_response_time_ms := minv,
              max_response_time_ms := maxv, std_sq_response_time_ms := stdSq,
              status_code_counts := counts,
              final_rate_limit_remaining := none, rate_limit_usage := none }
      | f :: fs =>
          match pyInt f.rate_limit_limit with
          | none => .raised
          | some l =>
              let fin := pdToNumeric (fs.getLastD f).rate_limit_remaining
              .summary
                { total_requests := n, successful_requests := nsucc,
                  failed_requests := nfail,
                  success_rate := (nsucc : ℚ) / (n : ℚ) * 100,
                  avg_response_time_ms := mean, min_response_time_ms := minv,
                  max_response_time_ms := maxv, std_sq_response_time_ms := stdSq,
                  status_code_counts := counts,
                  final_rate_limit_remaining := fin,
                  rate_limit_usage :=
                    fin.map fun rq => 100 - rq / (l : ℚ) * 100 }

/-- The summary dictionary of an analyzer outcome, when one was produced. -/
def summaryOf : AnalyzeOutcome → Option Analysis
  | .summary a => some a
  | _ => none

/-- Whether the analyzer raised. -/
def analyzeRaised : AnalyzeOutcome → Bool
  | .raised => true
  | _ => false

/-- A 200 response with no rate-limit headers. -/
def respOkPlain : HttpResponse := ⟨200, "{}", none, none, none⟩

/-- A 403 response with no rate-limit headers. -/
def resp403Plain : HttpResponse := ⟨403, "forbidden", none, none, none⟩

/-- The C4 fixture: four 200 responses with latencies 100, 110, 90, 105 ms,
then one 403 response with latency 120 ms, as the executor records them. -/
def c4Records : List RequestRecord :=
  [buildRecord ⟨"/users/octocat", "t1", 100, .ok respOkPlain⟩,
   buildRecord ⟨"/users/octocat", "t2", 110, .ok respOkPlain⟩,
   buildRecord ⟨"/users/octocat", "t3", 90, .ok respOkPlain⟩,
   buildRecord ⟨"/users/octocat", "t4", 105, .ok respOkPlain⟩,
   buildRecord ⟨"/users/octocat", "t5", 120, .ok resp403Plain⟩]

/-- C4: on the fixed five-record sequence (4× status 200 with latencies
100, 110, 90, 105 ms, then 1× status 403 with latency 120 ms) the analyzer
reports total 5, successes 4, failures 1, success rate 80.0, average
latency 105.0 ms, and status-code counts {200: 4, 403: 1}. -/
theorem analyze_fixed_five :
    ∃ a, analyze_results c4Records = .summary a ∧
      a.total_requests = 5 ∧ a.successful_requests = 4 ∧ a.failed_requests = 1 ∧
      a.success_rate = 80 ∧ a.avg_response_time_ms = 105 ∧
      ∀ c : ℕ, a.status_code_counts c =
        if c = 200 then 4 else if c = 403 then 1 else 0 := by
  refine ⟨_, rfl, by decide, by decide, by decide, ?_, ?_, ?_⟩
  · show ((c4Records.filter fun r => r.success).length : ℚ) /
      (c4Records.length : ℚ) * 100 = 80
    rw [show (c4Records.filter fun r => r.success).length = 4 by decide,
      show c4Records.length = 5 by decide]
    norm_num
  · show (c4Records.map fun r => r.response_time_ms).sum /
      (c4Records.length : ℚ) = 105
    rw [show (c4Records.map fun r => r.response_time_ms) =
        [100, 110, 90, 105, 120] by
      simp [c4Records, buildRecord, respOkPlain, resp403Plain],
      show c4Records.length = 5 by decide]
    norm_num
  · intro c
    show (c4Records.filter fun r => r.status_code == c).length =
      if c = 200 then 4 else if c = 403 then 1 else 0
    by_cases h200 : c = 200
    · subst h200; decide
    · by_cases h403 : c = 403
      · subst h403; decide
      · have e200 : ((200 : ℕ) == c) = false := by
          simp only [beq_eq_false_iff_ne, ne_eq]
          exact fun h => h200 h.symm
        have e403 : ((403 : ℕ) == c) = false := by
          simp only [beq_eq_false_iff_ne, ne_eq]
          exact fun h => h403 h.symm
        simp [c4Records, buildRecord, respOkPlain, resp403Plain, List.filter,
          h200, h403, e200, e403]

/-- The arithmetic mean, written from the spec for comparison. -/
def specMean (xs : List ℚ) : ℚ := xs.sum / (xs.length : ℚ)

/-- Population variance (divisor `n`), written from the spec's words
"population standard deviation" for comparison with the code; the standard
deviation is its square root, so two lists have equal standard deviations
exactly when these squares agree. -/
def popVariance (xs : List ℚ) : ℚ :=
  (xs.map fun x => (x - specMean xs) ^ 2).sum / (xs.length : ℚ)

/-- Sample variance (Bessel divisor `n - 1`, the pandas `std()` default
`ddof=1`); the square of the standard deviation the code reports. -/
def sampleVariance (xs : List ℚ) : ℚ :=
  (xs.map fun x => (x - specMean xs) ^ 2).sum / ((xs.length : ℚ) - 1)

/-- Minimum of a nonempty list of rationals (0 for the empty list). -/
def specMin : List ℚ → ℚ
  | [] => 0
  | x :: xs => xs.foldl min x

/-- Maximum of a nonempty list of rationals (0 for the empty list). -/
def specMax : List ℚ → ℚ
  | [] => 0
  | x :: xs => xs.foldl max x

/-- Two 200-records with latencies 0 ms and 2 ms. -/
def c5Records : List RequestRecord :=
  [buildRecord ⟨"/users/octocat", "t1", 0, .ok respOkPlain⟩,
   buildRecord ⟨"/users/octocat", "t2", 2, .ok respOkPlain⟩]

/-- C5 counterexample: `df['response_time_ms'].std()` is the pandas default
`ddof=1`, i.e. the SAMPLE standard deviation, not the population one the
claim states: for latencies [0, 2] the code's squared deviation is 2 while
the population variance is 1. -/
theorem analyzer_population_std_cex :
    (summaryOf (analyze_results c5Records)).map
        (fun a => a.std_sq_response_time_ms) = some 2 ∧
    popVariance (c5Records.map fun r => r.response_time_ms) = 1 ∧
    (2 : ℚ) ≠ 1 := by
  refine ⟨?_, ?_, by norm_num⟩
  · simp only [c5Records, buildRecord, respOkPlain, analyze_results,
      summaryOf, List.filter, Option.map]
    norm_num
  · simp only [c5Records, buildRecord, respOkPlain, List.map]
    norm_num [popVariance, specMean]

/-- C5 (amended): whenever the analyzer returns a summary, its success rate
is `successes / total × 100` and its latency statistics are the mean,
minimum, maximum and SAMPLE standard deviation (pandas `ddof=1`, squared
here) of `response_time_ms` over all records including failed ones; the
empty sequence yields the empty summary without raising. -/
theorem analyzer_stats_formulas (records : List RequestRecord) (a : Analysis)
    (h : summaryOf (analyze_results records) = some a) :
    a.total_requests = records.length ∧
    a.successful_requests = (records.filter fun r => r.success).length ∧
    a.failed_requests = (records.filter fun r => !r.success).length ∧
    a.success_rate =
      ((records.filter fun r => r.success).length : ℚ) /
        (records.length : ℚ) * 100 ∧
    a.avg_response_time_ms = specMean (records.map fun r => r.response_time_ms) ∧
    a.min_response_time_ms = specMin (records.map fun r => r.response_time_ms) ∧
    a.max_response_time_ms = specMax (records.map fun r => r.response_time_ms) ∧
    a.std_sq_response_time_ms =
      sampleVariance (records.map fun r => r.response_time_ms) ∧
    analyze_results ([] : List RequestRecord) = .emptyDict := by
  cases records with
  | nil => simp [analyze_results, summaryOf] at h
  | cons r0 rest =>
      simp only [analyze_results] at h
      split at h
      · simp only [summaryOf, Option.some.injEq] at h
        subst h
        refine ⟨rfl, rfl, rfl, rfl, ?_, ?_, ?_, ?_, rfl⟩
        · simp [specMean]
        · simp [specMin, List.foldl_map]
        · simp [specMax, List.foldl_map]
        · simp [sampleVariance, specMean]
      · split at h
        · simp [summaryOf] at h
        · simp only [summaryOf, Option.some.injEq] at h
          subst h
          refine ⟨rfl, rfl, rfl, rfl, ?_, ?_, ?_, ?_, rfl⟩
          · simp [specMean]
          · simp [specMin, List.foldl_map]
          · simp [specMax, List.foldl_map]
          · simp [sampleVariance, specMean]

theorem analyzer_stats_formulas_witness :
    ∃ a, summaryOf (analyze_results c5Records) = some a ∧
      a.std_sq_response_time_ms =
        sampleVariance (c5Records.map fun r => r.response_time_ms) := by
  refine ⟨_, rfl, ?_⟩
  exact (analyzer_stats_formulas c5Records _ rfl).2.2.2.2.2.2.2.1

/-- C6: when at least one record carries rate-limit data (the filter on
`rate_limit_remaining != 'N/A'` is nonempty), the summary's
`final_rate_limit_remaining` is the remaining value of the LAST such record
and `rate_limit_usage` is `100 - remaining / limit × 100` with the limit
taken from the FIRST such record — even if later records carry a different
limit; when no record carries rate-limit data both fields are omitted
(`none`), with no error. -/
theorem rate_limit_usage_first_limit (records : List RequestRecord)
    (f : RequestRecord) (fs : List RequestRecord)
    (hfilter : records.filter (fun r => !(r.rate_limit_remaining == "N/A")) = f :: fs)
    (l : ℤ) (hl : pyInt f.rate_limit_limit = some l) (hl0 : l ≠ 0)
    (r : ℚ) (hr : pdToNumeric (fs.getLastD f).rate_limit_remaining = some r) :
    (∃ a, summaryOf (analyze_results records) = some a ∧
      a.final_rate_limit_remaining = some r ∧
      a.rate_limit_usage = some (100 - r / (l : ℚ) * 100)) ∧
    (∀ records2 : List RequestRecord, records2 ≠ [] →
      records2.filter (fun r2 => !(r2.rate_limit_remaining == "N/A")) = [] →
      ∃ a2, summaryOf (analyze_results records2) = some a2 ∧
        a2.final_rate_limit_remaining = none ∧ a2.rate_limit_usage = none) := by
  constructor
  · cases records with
    | nil => simp at hfilter
    | cons r0 rest =>
        simp only [analyze_results, hfilter, hl, summaryOf]
        exact ⟨_, rfl, by rw [hr], by rw [hr]; rfl⟩
  · intro records2 hne hempty
    cases records2 with
    | nil => exact absurd rfl hne
    | cons r0 rest =>
        simp only [analyze_results, hempty, summaryOf]
        exact ⟨_, rfl, rfl, rfl⟩

/-- Two records carrying rate-limit headers: remaining 4998 with limit 5000,
then remaining 0 with limit 60 — the usage denominator must stay 5000. -/
def c6Records : List RequestRecord :=
  [buildRecord ⟨"/users/octocat", "t1", 100, .ok respOk⟩,
   buildRecord ⟨"/users/octocat", "t2", 120, .ok resp403⟩]

set_option maxRecDepth 8192 in
theorem rate_limit_usage_first_limit_witness :
    ∃ a, summaryOf (analyze_results c6Records) = some a ∧
      a.final_rate_limit_remaining = some 0 ∧
      a.rate_limit_usage = some (100 - 0 / ((5000 : ℤ) : ℚ) * 100) := by
  have h := rate_limit_usage_first_limit c6Records
    (buildRecord ⟨"/users/octocat", "t1", 100, .ok respOk⟩)
    [buildRecord ⟨"/users/octocat", "t2", 120, .ok resp403⟩]
    (by decide) 5000 (by decide) (by decide) 0 (by decide)
  exact h.1

/-- A 200 response carrying `X-RateLimit-Remaining` but not
`X-RateLimit-Limit`. -/
def respMissingLimit : HttpResponse := ⟨200, "{}", some "4999", none, none⟩

set_option maxRecDepth 8192 in
/-- C9: the analyzer selects its rate-limit subset solely by
`rate_limit_remaining != 'N/A'` and then applies `int()` to the FIRST
selected record's `rate_limit_limit`; under the precondition that every
record with remaining data also carries a numeric limit, that conversion
cannot fail and `analyze_results` never raises — while a response carrying
`X-RateLimit-Remaining` but no `X-RateLimit-Limit` makes the usage
computation raise. -/
theorem analyzer_no_raise (records : List RequestRecord)
    (hpre : ∀ r ∈ records, r.rate_limit_remaining ≠ "N/A" →
      pyInt r.rate_limit_limit ≠ none) :
    analyzeRaised (analyze_results records) = false ∧
    analyzeRaised (analyze_results
      [buildRecord ⟨"/users/octocat", "t0", 50, .ok respMissingLimit⟩]) = true := by
  refine ⟨?_, by decide⟩
  cases records with
  | nil => rfl
  | cons r0 rest =>
      simp only [analyze_results]
      split
      · rfl
      · rename_i f fs heq
        split
        · rename_i hpy
          exfalso
          have hmem : f ∈ (r0 :: rest).filter
              (fun r => !(r.rate_limit_remaining == "N/A")) := by
            rw [heq]
            exact List.mem_cons_self f fs
          rw [List.mem_filter] at hmem
          refine hpre f hmem.1 ?_ hpy
          simpa using hmem.2
        · rfl

set_option maxRecDepth 8192 in
theorem analyzer_no_raise_witness :
    analyzeRaised (analyze_results c6Records) = false :=
  (analyzer_no_raise c6Records (by decide)).1

/-- Python truthiness of an optional string: `None` and `""` are falsy. -/
def pyTruthy : Option String → Bool
  | none => false
  | some s => !(s == "")

/-- Python `a or b` on optional strings, as in
`token or os.getenv('GITHUB_TOKEN')`. -/
def pyOrStr (a b : Option String) : Option String :=
  if pyTruthy a then a else b

/-- The token check of `GitHubAPITester.__init__`: take the argument or the
environment variable, and raise `ValueError` (the `.error` case, carrying
the message) when the result is falsy — before any network activity, since
the session is only configured afterwards. -/
def tester_init_token (token env_github_token : Option String) :
    Except String String :=
  let t := pyOrStr token env_github_token
  if pyTruthy t then
    .ok (t.getD "")
  else
    .error "GitHub token is required. Either pass it as an argument or set GITHUB_TOKEN environment variable."

/-- Observable behavior of the CLI entry point: the number of executor calls
made and the process exit status. -/
structure MainRun where
  executor_calls : ℕ
  exit_code : ℕ
deriving DecidableEq, Repr

/-- `main()`: with a truthy `GITHUB_TOKEN` it runs burst (10), sustained
(20) and delayed (15) patterns; with it missing it prints the error and
returns early, making no requests — and a bare `return` from `main` ends
the Python script normally, so the process exit status is 0 in both cases
(the program contains no `sys.exit`). -/
def main_run (env_github_token : Option String) : MainRun :=
  if pyTruthy env_github_token then
    { executor_calls := 10 + 20 + 15, exit_code := 0 }
  else
    { executor_calls := 0, exit_code := 0 }

/-- C8 counterexample: with the credential missing the CLI performs no
requests but exits with status 0 — a bare `return` from Python's `main()`
ends the script normally — refuting "exits with a non-zero status". -/
theorem main_missing_token_exit_cex :
    ¬ (main_run none).exit_code ≠ 0 := by decide

/-- C8 (amended): with the token argument and `GITHUB_TOKEN` both absent,
harness construction fails with the diagnostic before any network activity,
and the CLI entry point performs no requests and returns early — exiting
with status 0 (normal termination), not a non-zero status. -/
theorem missing_token_aborts :
    tester_init_token none none = .error "GitHub token is required. Either pass it as an argument or set GITHUB_TOKEN environment variable." ∧
    (main_run none).executor_calls = 0 ∧
    (main_run none).exit_code = 0 :=
  ⟨rfl, rfl, rfl⟩

/-- C10: for every received response — any status code, 403 included — the
three rate-limit headers are captured verbatim as strings in the record;
the sentinel `"N/A"` appears exactly when the corresponding header is
missing (given that no real header literally carries the value `"N/A"`),
so a failed-but-answered request still passes the analyzer's
`rate_limit_remaining != 'N/A'` filter whenever the header was present. -/
theorem headers_captured_verbatim (resp : HttpResponse) (e ts : String) (t : ℚ)
    (hrem : ∀ v, resp.xRateLimitRemaining = some v → v ≠ "N/A")
    (hlim : ∀ v, resp.xRateLimitLimit = some v → v ≠ "N/A")
    (hres : ∀ v, resp.xRateLimitReset = some v → v ≠ "N/A") :
    (∀ v, resp.xRateLimitRemaining = some v →
      (buildRecord ⟨e, ts, t, .ok resp⟩).rate_limit_remaining = v) ∧
    (∀ v, resp.xRateLimitLimit = some v →
      (buildRecord ⟨e, ts, t, .ok resp⟩).rate_limit_limit = v) ∧
    (∀ v, resp.xRateLimitReset = some v →
      (buildRecord ⟨e, ts, t, .ok resp⟩).rate_limit_reset = v) ∧
    ((buildRecord ⟨e, ts, t, .ok resp⟩).rate_limit_remaining = "N/A" ↔
      resp.xRateLimitRemaining = none) ∧
    ((buildRecord ⟨e, ts, t, .ok resp⟩).rate_limit_limit = "N/A" ↔
      resp.xRateLimitLimit = none) ∧
    ((buildRecord ⟨e, ts, t, .ok resp⟩).rate_limit_reset = "N/A" ↔
      resp.xRateLimitReset = none) ∧
    (resp.xRateLimitRemaining ≠ none →
      ((buildRecord ⟨e, ts, t, .ok resp⟩).rate_limit_remaining == "N/A") = false) := by
  obtain ⟨sc, tx, orem, olim, ores⟩ := resp
  cases orem <;> cases olim <;> cases ores <;>
    simp_all [buildRecord]

theorem headers_captured_verbatim_witness :
    (buildRecord ⟨"/users/octocat", "t0", 120, .ok resp403⟩).rate_limit_remaining = "0" ∧
    ((buildRecord ⟨"/users/octocat", "t0", 120, .ok resp403⟩).rate_limit_remaining
      == "N/A") = false := by
  have h := headers_captured_verbatim resp403 "/users/octocat" "t0" 120
    (by intro v hv; simp [resp403] at hv; subst hv; decide)
    (by intro v hv; simp [resp403] at hv; subst hv; decide)
    (by intro v hv; simp [resp403] at hv; subst hv; decide)
  exact ⟨h.1 "0" rfl, h.2.2.2.2.2.2 (by simp [resp403])⟩

end GithubApiTester
